import Mathlib

/-!
Verification of the USD/ILS exchange-rate dashboard (`main.py`) against its
specification.  The Python source is shallowly embedded: floating-point
numbers become exact rationals, pandas frames become explicit column lists,
and ambient effects (the wall clock, the network, the cache file) become
explicit arguments.  Each definition names the `main.py` lines it embeds.
-/

/-- One row of the rate table: a calendar date label and the USD/ILS rate.
In `main.py` a row is the dict with keys `Date` and `Rate`. -/
structure RatePoint where
  date : String
  rate : ℚ
deriving DecidableEq, Repr

instance : Inhabited RatePoint := ⟨⟨"", 0⟩⟩

/-- A trade direction, the `action` field of a recorded trade. -/
inductive TradeAction where
  | buy
  | sell
deriving DecidableEq, Repr

/-- A recorded trade, the dict appended to `trades` in
`calculate_trading_profit` (`main.py` lines 232-238 and 246-252). -/
structure Trade where
  date : String
  action : TradeAction
  rate : ℚ
  amount_usd : ℚ
  amount_nis : ℚ
deriving DecidableEq, Repr

/-- The mutable state of the backtest loop of `calculate_trading_profit`:
the two balances, the trade log and the portfolio-value list. -/
structure BTState where
  usd : ℚ
  nis : ℚ
  trades : List Trade
  pv : List ℚ
deriving DecidableEq, Repr

/-- The pandas frame flowing through `main.py`, reduced to the columns the
program uses.  `sma7` and `sma14` are `none` until `calculate_trading_profit`
assigns the `SMA_7` and `SMA_14` columns. -/
structure DataFrame where
  dates : List String
  rates : List ℚ
  sma7 : Option (List ℚ)
  sma14 : Option (List ℚ)
deriving DecidableEq, Repr

/-- Pandas rolling mean with window `w` and a minimum period of 1, as used
on the `Rate` column (`main.py` lines 216-217): entry `i` is the arithmetic
mean of the window of the at most `w` most recent values up to and
including index `i`. -/
def rollingMean (w : ℕ) (xs : List ℚ) : List ℚ :=
  (List.range xs.length).map fun i =>
    let win := (xs.take (i + 1)).reverse.take w
    win.sum / (win.length : ℚ)

/-- The trailing window as the spec describes it for the moving averages:
the slice of the series from index `max 0 (i - (w - 1))` up to and
including index `i`, truncated at the start of the series. -/
def trailingSlice (w : ℕ) (xs : List ℚ) (i : ℕ) : List ℚ :=
  (xs.drop (i - (w - 1))).take (i + 1 - (i - (w - 1)))

/-- One iteration of the row loop of `calculate_trading_profit`
(`main.py` lines 219-257) at position `i`, reading the `Rate`, `SMA_7` and
`SMA_14` columns: a BUY converts the whole USD balance on an upward
crossover, a SELL converts the whole local balance on a downward crossover,
and every iteration appends the mark-to-USD portfolio value. -/
def btStep (dates : List String) (rates s7 s14 : List ℚ) (s : BTState) (i : ℕ) : BTState :=
  let current_rate := rates.getD i 0
  let s1 :=
    if i = 0 then s
    else
      if s7.getD i 0 > s14.getD i 0 ∧ s7.getD (i - 1) 0 ≤ s14.getD (i - 1) 0 ∧ s.usd > 0 then
        ⟨0, s.usd * current_rate,
          s.trades ++ [⟨dates.getD i "", TradeAction.buy, current_rate, s.usd,
            s.usd * current_rate⟩],
          s.pv⟩
      else if s7.getD i 0 < s14.getD i 0 ∧ s7.getD (i - 1) 0 ≥ s14.getD (i - 1) 0 ∧ s.nis > 0 then
        ⟨s.nis / current_rate, 0,
          s.trades ++ [⟨dates.getD i "", TradeAction.sell, current_rate, s.nis / current_rate,
            s.nis⟩],
          s.pv⟩
      else s
  ⟨s1.usd, s1.nis, s1.trades, s1.pv ++ [s1.usd + s1.nis / current_rate]⟩

/-- The loop state of `calculate_trading_profit` after the first `k`
iterations, starting from the initial balances (`usd_balance` equal to
`initial_usd`, `nis_balance` zero) and empty logs. -/
def btRunUpTo (dates : List String) (rates s7 s14 : List ℚ) (initial : ℚ) (k : ℕ) : BTState :=
  (List.range k).foldl (btStep dates rates s7 s14) ⟨initial, 0, [], []⟩

/-- The full backtest loop over the whole series. -/
def btRun (dates : List String) (rates s7 s14 : List ℚ) (initial : ℚ) : BTState :=
  btRunUpTo dates rates s7 s14 initial rates.length

/-- The function `calculate_trading_profit` (`main.py` lines 206-264).  It
assigns the `SMA_7` and `SMA_14` columns on the CALLER'S frame in place
(lines 216-217); the first component below is that caller-visible frame
after the call.  The second component is the returned tuple of profit,
profit percentage, trades and portfolio values, or `none` when the function
raises instead of returning: on an empty frame the final `iloc[-1]` (line
260) raises IndexError, and with a zero `initial_usd` line 262 divides by
zero. -/
def calculate_trading_profit (df : DataFrame) (initial_usd : ℚ) :
    DataFrame × Option (ℚ × ℚ × List Trade × List ℚ) :=
  let df1 : DataFrame :=
    ⟨df.dates, df.rates, some (rollingMean 7 df.rates), some (rollingMean 14 df.rates)⟩
  let s := btRun df1.dates df1.rates (rollingMean 7 df.rates) (rollingMean 14 df.rates) initial_usd
  match df1.rates.getLast? with
  | none => (df1, none)
  | some lastRate =>
    if initial_usd = 0 then (df1, none)
    else
      let final_usd := s.usd + s.nis / lastRate
      (df1, some (final_usd - initial_usd, (final_usd - initial_usd) / initial_usd * 100,
        s.trades, s.pv))

/-- Python `round` to 4 decimal places on the exact rational value.  On the
values the demo generator produces the argument is already an exact
multiple of 1/10000, so the tie-breaking rule is immaterial. -/
def round4 (q : ℚ) : ℚ := (round (q * 10000) : ℚ) / 10000

/-- The rate of the `i`-th demo point (`main.py` lines 193-197): base rate
3.09 plus the linear trend `0.0005 * (i - 15)` plus the periodic ripple
`0.01 * ((i % 5) - 2) / 2`, rounded to 4 decimals. -/
def demoRate (i : ℕ) : ℚ :=
  round4 ((309 : ℚ) / 100 + (5 : ℚ) / 10000 * ((i : ℚ) - 15) +
    (1 : ℚ) / 100 * (((i % 5 : ℕ) : ℚ) - 2) / 2)

/-- The function `generate_demo_data` (`main.py` lines 186-203).  Its date
labels come from the clock: `start_date` is the current instant minus 30
days, and point `i` is stamped `start_date` plus `i` days.  Calendar days
are modelled as integers (`startDay` is the day number of `start_date`) and
the `%Y-%m-%d` rendering as the injective encoding `toString` of the day
number.  Returns the data, the current rate (the last point's rate, line
202) and the demo status label. -/
def generate_demo_data (startDay : ℤ) : List RatePoint × ℚ × String :=
  let data := (List.range 30).map fun (i : ℕ) =>
    (⟨toString (startDay + (i : ℤ)), demoRate i⟩ : RatePoint)
  (data, (data.getLastD default).rate, "📊 Demo mode (realistic rates)")

/-- The `timestamp` field of the cache file as `datetime.fromisoformat`
sees it: either a string that fails to parse (raising ValueError, caught by
the bare `except`) or a parsed instant, modelled in epoch seconds. -/
inductive TsVal where
  | unparseable (raw : String)
  | parsed (epochSeconds : ℚ)
deriving DecidableEq, Repr

/-- The state of the cache file as `load_cached_data` can find it: missing,
unparseable JSON, or a JSON object each of whose three required fields is
present or missing (`data` is `none` also when its value cannot be turned
into a records frame). -/
inductive CacheFile where
  | absent
  | malformed
  | record (timestamp : Option TsVal) (data : Option (List RatePoint)) (current_rate : Option ℚ)
deriving DecidableEq, Repr

/-- The successful part of the `try` block of `load_cached_data`
(`main.py` lines 173-179): the data, current rate and capture instant,
defined exactly when the file exists, parses as JSON, and all of `data`,
`timestamp` (ISO-parseable) and `current_rate` are present; `none` on every
failure (the bare `except` with `pass` swallows the exception). -/
def cacheLoad : CacheFile → Option (List RatePoint × ℚ × ℚ)
  | CacheFile.record (some (TsVal.parsed t)) (some pts) (some r) => some (pts, r, t)
  | _ => none

/-- Python's fixed-point formatting with one digit after the decimal point,
on an exact rational (Python formats the nearest binary double rounding
half to even, which agrees on unambiguous values such as the ones below). -/
def fmt1 (q : ℚ) : String :=
  let n : ℤ := round (q * 10)
  let sign := if n < 0 then "-" else ""
  sign ++ toString (n.natAbs / 10) ++ "." ++ toString (n.natAbs % 10)

/-- The function `load_cached_data` (`main.py` lines 170-184): return the
cached frame with a staleness label when the cache record loads, else fall
through to `generate_demo_data`.  `now` is the clock in epoch seconds and
`startDay` the demo generator's start day, both ambient in Python. -/
def load_cached_data (c : CacheFile) (now : ℚ) (startDay : ℤ) : List RatePoint × ℚ × String :=
  match cacheLoad c with
  | some (pts, r, t) =>
      (pts, r, "⚠️ Using cached data (" ++ fmt1 ((now - t) / 3600) ++ " hours old)")
  | none => generate_demo_data startDay

/-- The outcome of the three provider fetches in one refresh: each of
`fetch_from_bank_of_israel`, `fetch_from_exchangerate_host` and
`fetch_from_exchangerate_api` either fails (returns the all-`None` triple
after catching every error internally) or yields a rate and a date. -/
structure SourceWorld where
  boi : Option (ℚ × String)
  erHost : Option (ℚ × String)
  erApi : Option (ℚ × String)
deriving Repr

/-- Truthiness of the rate slot as the bare `if rate:` tests it in
`get_current_rate`: present and non-zero. -/
def ratePresent : Option (ℚ × String) → Bool
  | some p => p.1 != 0
  | none => false

/-- The third link of the chain of `get_current_rate`
(`main.py` lines 131-136). -/
def gcrApi (w : SourceWorld) : Option ℚ × Option String × String :=
  match w.erApi with
  | some (r, d) =>
      if r = 0 then (none, none, "❌ All APIs unavailable")
      else (some r, some d, "✅ ExchangeRate-API")
  | none => (none, none, "❌ All APIs unavailable")

/-- The second and third links of the chain of `get_current_rate`
(`main.py` lines 126-136). -/
def gcrHost (w : SourceWorld) : Option ℚ × Option String × String :=
  match w.erHost with
  | some (r, d) => if r = 0 then gcrApi w else (some r, some d, "✅ ExchangeRate.host")
  | none => gcrApi w

/-- The function `get_current_rate` (`main.py` lines 116-136): try Bank of
Israel, then ExchangeRate.host, then ExchangeRate-API, returning the first
truthy rate with its status label, and the sentinel triple with label
"❌ All APIs unavailable" when all three fail. -/
def get_current_rate (w : SourceWorld) : Option ℚ × Option String × String :=
  match w.boi with
  | some (r, d) =>
      if r = 0 then gcrHost w else (some r, some d, "✅ Bank of Israel (Official)")
  | none => gcrHost w

/-- Everything ambient that one call of `fetch_real_exchange_rates` reads:
the three providers' outcomes, the historical fetch's outcome per requested
day count (`none` when `fetch_historical_data` fails soft), whether some
statement of the `try` block raises (for instance the cache write at lines
157-158), the cache file, and the clock. -/
structure World where
  sources : SourceWorld
  hist : ℕ → Option (List RatePoint)
  raises : Bool
  cache : CacheFile
  nowSeconds : ℚ
  startDay : ℤ

/-- The function `fetch_real_exchange_rates` (`main.py` lines 138-168):
when the `try` body completes and the historical frame is present and
non-empty, return it with the live rate (or, when the live rate is `None`
or zero, the frame's last rate) and the status label of
`get_current_rate`; on an empty or missing frame, or when anything in the
`try` block raises, fall back to `load_cached_data`. -/
def fetch_real_exchange_rates (w : World) (days : ℕ) : List RatePoint × ℚ × String :=
  if w.raises then load_cached_data w.cache w.nowSeconds w.startDay
  else
    let cur := get_current_rate w.sources
    match w.hist days with
    | some df =>
        if df.isEmpty then load_cached_data w.cache w.nowSeconds w.startDay
        else
          let actual :=
            match cur.1 with
            | some r => if r = 0 then (df.getLastD default).rate else r
            | none => (df.getLastD default).rate
          (df, actual, cur.2.2)
    | none => load_cached_data w.cache w.nowSeconds w.startDay

/-- An eight-point series whose 7-wide mean crosses above the 14-wide mean
at index 7; concrete input for the backtest witnesses. -/
def sampleRates : List ℚ := [1, 2, 2, 2, 2, 2, 2, 2]

/-- Date labels for `sampleRates`. -/
def sampleDates : List String := ["d0", "d1", "d2", "d3", "d4", "d5", "d6", "d7"]

/-- A world in which the live fetch fails and the cache holds a
schema-valid record with an EMPTY data array. -/
def emptyCacheWorld : World :=
  ⟨⟨none, none, none⟩, fun _ => none, false,
    CacheFile.record (some (TsVal.parsed 0)) (some []) (some (31 / 10)), 3600, 0⟩

/-- A world in which the live fetch and the cache both fail. -/
def allDownWorld : World :=
  ⟨⟨none, none, none⟩, fun _ => none, false, CacheFile.absent, 0, 0⟩

/-- The invariant that drives the alternation property of the trade log:
the log alternates, its last action pins the corresponding balance to
zero, an empty log means no local currency is held yet, and a non-empty
log starts with a BUY. -/
def TradesAlt (s : BTState) : Prop :=
  s.trades.Chain' (fun a b => a.action ≠ b.action) ∧
  (∀ t, s.trades.getLast? = some t →
    (t.action = TradeAction.buy → s.usd = 0) ∧ (t.action = TradeAction.sell → s.nis = 0)) ∧
  (s.trades = [] → s.nis = 0) ∧
  (∀ t, s.trades.head? = some t → t.action = TradeAction.buy)

/-- Taking the last `w` entries of a prefix is the reverse of the trailing
slice, for an in-range index. -/
theorem take_reverse_window (w : ℕ) (xs : List ℚ) (i : ℕ) (hw1 : 1 ≤ w) (hi : i < xs.length) :
    (xs.take (i + 1)).reverse.take w = (trailingSlice w xs i).reverse := by
  unfold trailingSlice
  have hmm : i - (w - 1) = i + 1 - w := by omega
  rw [hmm]
  rcases le_or_lt (i + 1) w with hw | hw
  · have hm0 : i + 1 - w = 0 := by omega
    rw [hm0]
    simp only [List.drop_zero, Nat.sub_zero]
    apply List.take_of_length_le
    rw [List.length_reverse, List.length_take]
    omega
  · set m := i + 1 - w with hm
    have hadd : m + (i + 1 - m) = i + 1 := by omega
    have hsplit := List.take_add xs m (i + 1 - m)
    rw [hadd] at hsplit
    rw [hsplit, List.reverse_append]
    have hlen : ((xs.drop m).take (i + 1 - m)).reverse.length = w := by
      rw [List.length_reverse, List.length_take, List.length_drop]
      omega
    exact List.take_left' hlen

/-- The rolling-mean column has one entry per series entry. -/
theorem rollingMean_length (w : ℕ) (xs : List ℚ) : (rollingMean w xs).length = xs.length := by
  simp [rollingMean]

/-- Entry `i` of the rolling mean is the arithmetic mean of the trailing
slice of width at most `w`. -/
theorem rollingMean_getD (w : ℕ) (xs : List ℚ) (i : ℕ) (hw1 : 1 ≤ w) (hi : i < xs.length) :
    (rollingMean w xs).getD i 0 =
      (trailingSlice w xs i).sum / ((trailingSlice w xs i).length : ℚ) := by
  unfold rollingMean
  simp only [List.getD_eq_getElem?_getD, List.getElem?_map, List.getElem?_range, hi,
    Option.map_some', Option.getD_some]
  rw [take_reverse_window w xs i hw1 hi, List.sum_reverse, List.length_reverse]

/-- One loop step appends exactly the BUY trade under the BUY crossover
conditions, exactly the SELL trade under the SELL crossover conditions, and
otherwise leaves the log unchanged; never more than one trade. -/
theorem btStep_trades (dates : List String) (rates s7 s14 : List ℚ) (s : BTState) (i : ℕ) :
    ((btStep dates rates s7 s14 s i).trades =
        s.trades ++ [⟨dates.getD i "", TradeAction.buy, rates.getD i 0, s.usd,
          s.usd * rates.getD i 0⟩] ↔
      0 < i ∧ s7.getD i 0 > s14.getD i 0 ∧ s7.getD (i - 1) 0 ≤ s14.getD (i - 1) 0 ∧ s.usd > 0) ∧
    ((btStep dates rates s7 s14 s i).trades =
        s.trades ++ [⟨dates.getD i "", TradeAction.sell, rates.getD i 0,
          s.nis / rates.getD i 0, s.nis⟩] ↔
      0 < i ∧ s7.getD i 0 < s14.getD i 0 ∧ s7.getD (i - 1) 0 ≥ s14.getD (i - 1) 0 ∧ s.nis > 0) ∧
    ((btStep dates rates s7 s14 s i).trades = s.trades ∨
      ∃ t, (btStep dates rates s7 s14 s i).trades = s.trades ++ [t]) := by
  by_cases hi : i = 0
  · subst hi
    simp [btStep]
  · have hpos : 0 < i := Nat.pos_of_ne_zero hi
    by_cases h1 : s7.getD i 0 > s14.getD i 0 ∧ s7.getD (i - 1) 0 ≤ s14.getD (i - 1) 0 ∧ s.usd > 0
    · have hstep : (btStep dates rates s7 s14 s i).trades =
          s.trades ++ [⟨dates.getD i "", TradeAction.buy, rates.getD i 0, s.usd,
            s.usd * rates.getD i 0⟩] := by
        simp only [btStep]
        rw [if_neg hi, if_pos h1]
      rw [hstep]
      refine ⟨⟨fun _ => ⟨hpos, h1⟩, fun _ => rfl⟩, ?_, Or.inr ⟨_, rfl⟩⟩
      constructor
      · intro h
        simp at h
      · rintro ⟨-, h2a, -, -⟩
        exact absurd h2a (lt_asymm h1.1)
    · by_cases h2 : s7.getD i 0 < s14.getD i 0 ∧ s7.getD (i - 1) 0 ≥ s14.getD (i - 1) 0 ∧ s.nis > 0
      · have hstep : (btStep dates rates s7 s14 s i).trades =
            s.trades ++ [⟨dates.getD i "", TradeAction.sell, rates.getD i 0,
              s.nis / rates.getD i 0, s.nis⟩] := by
          simp only [btStep]
          rw [if_neg hi, if_neg h1, if_pos h2]
        rw [hstep]
        refine ⟨?_, ⟨fun _ => ⟨hpos, h2⟩, fun _ => rfl⟩, Or.inr ⟨_, rfl⟩⟩
        constructor
        · intro h
          simp at h
        · rintro ⟨-, h2a, -, -⟩
          exact absurd h2a (lt_asymm h2.1)
      · have hstep : (btStep dates rates s7 s14 s i).trades = s.trades := by
          simp only [btStep]
          rw [if_neg hi, if_neg h1, if_neg h2]
        rw [hstep]
        refine ⟨?_, ?_, Or.inl rfl⟩
        · constructor
          · intro h
            simp at h
          · rintro ⟨-, ha, hb, hc⟩
            exact (h1 ⟨ha, hb, hc⟩).elim
        · constructor
          · intro h
            simp at h
          · rintro ⟨-, ha, hb, hc⟩
            exact (h2 ⟨ha, hb, hc⟩).elim

/-- Unfolding one iteration of the backtest fold. -/
theorem btRunUpTo_succ (dates : List String) (rates s7 s14 : List ℚ) (initial : ℚ) (k : ℕ) :
    btRunUpTo dates rates s7 s14 initial (k + 1) =
      btStep dates rates s7 s14 (btRunUpTo dates rates s7 s14 initial k) k := by
  unfold btRunUpTo
  rw [List.range_succ, List.foldl_append]
  rfl

/-- With one list serving as both indicator columns, the loop never trades
and only appends the constant portfolio value. -/
theorem btRunUpTo_flat (dates : List String) (rates ma : List ℚ) (initial : ℚ) (k : ℕ) :
    btRunUpTo dates rates ma ma initial k = ⟨initial, 0, [], List.replicate k initial⟩ := by
  induction k with
  | zero => rfl
  | succ n ih =>
    rw [btRunUpTo_succ, ih]
    simp only [btStep]
    split_ifs with h0 h1 h2
    · simp [List.replicate_succ']
    · exact absurd h1.1 (lt_irrefl _)
    · exact absurd h2.1 (lt_irrefl _)
    · simp [List.replicate_succ']

/-- One loop step preserves the alternation invariant. -/
theorem tradesAlt_step (dates : List String) (rates s7 s14 : List ℚ) (s : BTState) (i : ℕ)
    (h : TradesAlt s) : TradesAlt (btStep dates rates s7 s14 s i) := by
  obtain ⟨hchain, hlast, hemp, hhead⟩ := h
  simp only [btStep]
  split_ifs with h0 h1 h2
  · exact ⟨hchain, hlast, hemp, hhead⟩
  · obtain ⟨-, -, husd⟩ := h1
    refine ⟨?_, ?_, ?_, ?_⟩
    · refine List.chain'_append.mpr ⟨hchain, List.chain'_singleton _, ?_⟩
      intro x hx y hy
      simp only [List.head?_cons, Option.mem_def, Option.some.injEq] at hy
      subst hy
      cases hxa : x.action with
      | buy => exact absurd husd (by rw [(hlast x hx).1 hxa]; exact lt_irrefl 0)
      | sell => simp [hxa]
    · intro t ht
      rw [List.getLast?_concat] at ht
      cases ht
      exact ⟨fun _ => rfl, fun habs => by simp at habs⟩
    · intro habs
      simp at habs
    · intro t ht
      cases hc : s.trades with
      | nil =>
        rw [hc] at ht
        simp only [List.nil_append, List.head?_cons, Option.some.injEq] at ht
        subst ht
        rfl
      | cons a l =>
        rw [hc] at ht
        simp only [List.cons_append, List.head?_cons, Option.some.injEq] at ht
        exact ht ▸ hhead a (by rw [hc]; rfl)
  · obtain ⟨-, -, hnis⟩ := h2
    have hne : s.trades ≠ [] := fun he => absurd (hemp he) (ne_of_gt hnis)
    refine ⟨?_, ?_, ?_, ?_⟩
    · refine List.chain'_append.mpr ⟨hchain, List.chain'_singleton _, ?_⟩
      intro x hx y hy
      simp only [List.head?_cons, Option.mem_def, Option.some.injEq] at hy
      subst hy
      cases hxa : x.action with
      | sell => exact absurd hnis (by rw [(hlast x hx).2 hxa]; exact lt_irrefl 0)
      | buy => simp [hxa]
    · intro t ht
      rw [List.getLast?_concat] at ht
      cases ht
      exact ⟨fun habs => by simp at habs, fun _ => rfl⟩
    · intro habs
      simp at habs
    · intro t ht
      cases hc : s.trades with
      | nil => exact absurd hc hne
      | cons a l =>
        rw [hc] at ht
        simp only [List.cons_append, List.head?_cons, Option.some.injEq] at ht
        exact ht ▸ hhead a (by rw [hc]; rfl)
  · exact ⟨hchain, hlast, hemp, hhead⟩

/-- The alternation invariant holds at every stage of the backtest. -/
theorem tradesAlt_run (dates : List String) (rates s7 s14 : List ℚ) (initial : ℚ) (k : ℕ) :
    TradesAlt (btRunUpTo dates rates s7 s14 initial k) := by
  induction k with
  | zero =>
    refine ⟨List.chain'_nil, ?_, fun _ => rfl, ?_⟩
    · intro t ht
      simp [btRunUpTo] at ht
    · intro t ht
      simp [btRunUpTo] at ht
  | succ n ih =>
    rw [btRunUpTo_succ]
    exact tradesAlt_step dates rates s7 s14 _ n ih

/-- The frame component returned by `calculate_trading_profit` is the input
frame with the two indicator columns assigned. -/
theorem calc_profit_frame (df : DataFrame) (initial_usd : ℚ) :
    (calculate_trading_profit df initial_usd).1 =
      ⟨df.dates, df.rates, some (rollingMean 7 df.rates), some (rollingMean 14 df.rates)⟩ := by
  unfold calculate_trading_profit
  dsimp only
  split
  · rfl
  · split_ifs <;> rfl

/-- Every label `get_current_rate` can return is non-empty. -/
theorem get_current_rate_label_pos (w : SourceWorld) : 0 < (get_current_rate w).2.2.length := by
  obtain ⟨b, eh, ea⟩ := w
  rcases b with _ | ⟨rb, db⟩ <;> rcases eh with _ | ⟨rh, dh⟩ <;> rcases ea with _ | ⟨ra, da⟩ <;>
    simp only [get_current_rate, gcrHost, gcrApi] <;> (try split_ifs) <;> (try dsimp only) <;>
    decide

/-- The cache tier returns a non-empty series (when loaded records are
non-empty) and a non-empty label, falling to the demo tier otherwise. -/
theorem load_cached_data_sound (c : CacheFile) (now : ℚ) (sd : ℤ)
    (h : ∀ pts r t, cacheLoad c = some (pts, r, t) → pts ≠ []) :
    (load_cached_data c now sd).1 ≠ [] ∧ 0 < (load_cached_data c now sd).2.2.length := by
  unfold load_cached_data
  cases hcl : cacheLoad c with
  | none =>
    constructor
    · show (generate_demo_data sd).1 ≠ []
      simp [generate_demo_data]
    · show 0 < (generate_demo_data sd).2.2.length
      dsimp only [generate_demo_data]
      decide
  | some v =>
    obtain ⟨pts, r, t⟩ := v
    constructor
    · exact h pts r t hcl
    · show 0 < ("⚠️ Using cached data (" ++ fmt1 ((now - t) / 3600) ++ " hours old)").length
      rw [String.length_append, String.length_append]
      have hpos : 0 < ("⚠️ Using cached data (").length := by decide
      omega

/-- A label of the shape the spec claims, a provider name followed by a
parenthesised rank label, always contains an opening parenthesis. -/
theorem rank_label_shape_contains_paren (name rank : String) :
    ((name ++ " (" ++ rank ++ ")").data.contains '(') = true := by
  have hmem : '(' ∈ (name ++ " (" ++ rank ++ ")").data := by
    simp only [String.data_append, List.mem_append]
    left; left; right
    decide
  exact List.elem_eq_true_of_mem hmem

/-- C1: at every loop index the backtest records a BUY trade exactly when
the short MA strictly exceeds the long MA at `i`, did not strictly exceed
it at `i - 1`, and the USD balance is positive — converting the entire USD
balance at rate `i` — and records a SELL trade exactly when the short MA is
strictly below the long MA at `i`, was not strictly below at `i - 1`, and
the local balance is positive — converting the entire local balance at
rate `i`; no trade is recorded at index 0 and at most one trade is recorded
per index. -/
theorem backtest_trade_rule (dates : List String) (rates s7 s14 : List ℚ) (initial : ℚ)
    (i : ℕ) :
    ((btRunUpTo dates rates s7 s14 initial (i + 1)).trades =
        (btRunUpTo dates rates s7 s14 initial i).trades ++
          [⟨dates.getD i "", TradeAction.buy, rates.getD i 0,
            (btRunUpTo dates rates s7 s14 initial i).usd,
            (btRunUpTo dates rates s7 s14 initial i).usd * rates.getD i 0⟩] ↔
      0 < i ∧ s7.getD i 0 > s14.getD i 0 ∧ s7.getD (i - 1) 0 ≤ s14.getD (i - 1) 0 ∧
        (btRunUpTo dates rates s7 s14 initial i).usd > 0) ∧
    ((btRunUpTo dates rates s7 s14 initial (i + 1)).trades =
        (btRunUpTo dates rates s7 s14 initial i).trades ++
          [⟨dates.getD i "", TradeAction.sell, rates.getD i 0,
            (btRunUpTo dates rates s7 s14 initial i).nis / rates.getD i 0,
            (btRunUpTo dates rates s7 s14 initial i).nis⟩] ↔
      0 < i ∧ s7.getD i 0 < s14.getD i 0 ∧ s7.getD (i - 1) 0 ≥ s14.getD (i - 1) 0 ∧
        (btRunUpTo dates rates s7 s14 initial i).nis > 0) ∧
    (btRunUpTo dates rates s7 s14 initial 1).trades = [] ∧
    ((btRunUpTo dates rates s7 s14 initial (i + 1)).trades =
        (btRunUpTo dates rates s7 s14 initial i).trades ∨
      ∃ t, (btRunUpTo dates rates s7 s14 initial (i + 1)).trades =
        (btRunUpTo dates rates s7 s14 initial i).trades ++ [t]) := by
  have h := btStep_trades dates rates s7 s14 (btRunUpTo dates rates s7 s14 initial i) i
  rw [← btRunUpTo_succ] at h
  have h1 : (btRunUpTo dates rates s7 s14 initial 1).trades = [] := by
    rw [btRunUpTo_succ]
    simp [btStep, btRunUpTo]
  exact ⟨h.1, h.2.1, h1, h.2.2⟩

/-- C2: for every rate series the indicator columns have the length of the
series and entry `i` is the arithmetic mean of the trailing window — 7 wide
for the short MA, 14 wide for the long MA — truncated at the start of the
series rather than padded. -/
theorem indicator_window_mean (xs : List ℚ) :
    (rollingMean 7 xs).length = xs.length ∧ (rollingMean 14 xs).length = xs.length ∧
    (∀ i, i < xs.length → (rollingMean 7 xs).getD i 0 =
      (trailingSlice 7 xs i).sum / ((trailingSlice 7 xs i).length : ℚ)) ∧
    (∀ i, i < xs.length → (rollingMean 14 xs).getD i 0 =
      (trailingSlice 14 xs i).sum / ((trailingSlice 14 xs i).length : ℚ)) :=
  ⟨rollingMean_length 7 xs, rollingMean_length 14 xs,
    fun i hi => rollingMean_getD 7 xs i (by norm_num) hi,
    fun i hi => rollingMean_getD 14 xs i (by norm_num) hi⟩

/-- C2 witness: the window means at a full-window index and a truncated
index of the concrete eight-point series. -/
theorem indicator_window_mean_witness :
    (rollingMean 7 sampleRates).getD 7 0 =
      (trailingSlice 7 sampleRates 7).sum / ((trailingSlice 7 sampleRates 7).length : ℚ) ∧
    (rollingMean 14 sampleRates).getD 3 0 =
      (trailingSlice 14 sampleRates 3).sum / ((trailingSlice 14 sampleRates 3).length : ℚ) :=
  ⟨(indicator_window_mean sampleRates).2.2.1 7 (by decide),
    (indicator_window_mean sampleRates).2.2.2 3 (by decide)⟩

/-- C3 (amended): the acquirer is total — it always returns a series, a
current rate and a non-empty status label — and the returned series is
non-empty whenever every successfully loaded cache record carries a
non-empty data array; the live and demo tiers always yield non-empty
series.  As stated the claim fails: a schema-valid cache record with an
empty data array is returned as an empty series (see the
counterexample). -/
theorem acquire_total (w : World) (days : ℕ)
    (h : ∀ pts r t, cacheLoad w.cache = some (pts, r, t) → pts ≠ []) :
    (fetch_real_exchange_rates w days).1 ≠ [] ∧
    0 < (fetch_real_exchange_rates w days).2.2.length := by
  unfold fetch_real_exchange_rates
  split_ifs with hr
  · exact load_cached_data_sound w.cache w.nowSeconds w.startDay h
  · dsimp only
    split
    · split_ifs with he
      · exact load_cached_data_sound w.cache w.nowSeconds w.startDay h
      · refine ⟨?_, get_current_rate_label_pos w.sources⟩
        intro hempty
        dsimp only at hempty
        exact he (by simp [hempty])
    · exact load_cached_data_sound w.cache w.nowSeconds w.startDay h

/-- C3 witness: with every tier down the acquirer still returns a non-empty
series and a non-empty label. -/
theorem acquire_total_witness :
    (fetch_real_exchange_rates allDownWorld 30).1 ≠ [] ∧
    0 < (fetch_real_exchange_rates allDownWorld 30).2.2.length :=
  acquire_total allDownWorld 30 (fun pts r t hx => by simp [allDownWorld, cacheLoad] at hx)

/-- C3 counterexample: when the live fetch fails and the cache holds a
schema-valid record whose data array is empty, the acquirer returns an
EMPTY series together with the cached current rate, refuting "always
returns a non-empty rate series". -/
theorem acquire_empty_series_counterexample :
    (fetch_real_exchange_rates emptyCacheWorld 30).1 = [] ∧
    (fetch_real_exchange_rates emptyCacheWorld 30).2.1 = 31 / 10 := ⟨rfl, rfl⟩

/-- C4: the recorded trades always alternate between BUY and SELL, and when
any trade exists the first recorded trade is a BUY. -/
theorem trades_alternate (dates : List String) (rates : List ℚ) (initial : ℚ) :
    ((btRun dates rates (rollingMean 7 rates) (rollingMean 14 rates) initial).trades).Chain'
        (fun a b => a.action ≠ b.action) ∧
    ∀ t, ((btRun dates rates (rollingMean 7 rates) (rollingMean 14 rates) initial).trades).head? =
        some t → t.action = TradeAction.buy := by
  have h := tradesAlt_run dates rates (rollingMean 7 rates) (rollingMean 14 rates) initial
    rates.length
  exact ⟨h.1, h.2.2.2⟩

/-- Concrete evaluation of the backtest: on the eight-point sample series
the 7-wide mean crosses above the 14-wide mean at index 7 and the run
records exactly one BUY of the whole balance at rate 2. -/
theorem sample_run_single_buy :
    (btRun sampleDates sampleRates (rollingMean 7 sampleRates) (rollingMean 14 sampleRates)
      1000).trades = [⟨"d7", TradeAction.buy, 2, 1000, 2000⟩] := by
  norm_num [btRun, btRunUpTo, btStep, rollingMean, sampleRates, sampleDates, List.range_succ]

/-- C4 witness: the alternation invariant on the concrete eight-point
series whose MA columns cross once. -/
theorem trades_alternate_witness :
    ((btRun sampleDates sampleRates (rollingMean 7 sampleRates) (rollingMean 14 sampleRates)
        1000).trades).Chain' (fun a b => a.action ≠ b.action) :=
  (trades_alternate sampleDates sampleRates 1000).1

/-- C5 (amended): the demo generator's RATE sequence is a deterministic
function of the point index alone — identical for any two invocation
times — and each rate is the base 3.09 plus the trend 0.0005 * (i - 15)
plus the ripple 0.01 * ((i mod 5) - 2) / 2, rounded to 4 decimals.  As
stated the claim fails: the date labels depend on the clock, so two
invocations on different days are not bit-identical (see the
counterexample). -/
theorem demo_rates_deterministic (s1 s2 : ℤ) :
    (generate_demo_data s1).1.map RatePoint.rate = (generate_demo_data s2).1.map RatePoint.rate ∧
    ∀ i, i < 30 → ((generate_demo_data s1).1.map RatePoint.rate).getD i 0 =
      round4 ((309 : ℚ) / 100 + (5 : ℚ) / 10000 * ((i : ℚ) - 15) +
        (1 : ℚ) / 100 * (((i % 5 : ℕ) : ℚ) - 2) / 2) := by
  have hmap : ∀ s : ℤ, (generate_demo_data s).1.map RatePoint.rate =
      (List.range 30).map demoRate := by
    intro s
    unfold generate_demo_data
    rw [List.map_map]
    rfl
  constructor
  · rw [hmap, hmap]
  · intro i hi
    rw [hmap]
    simp only [List.getD_eq_getElem?_getD, List.getElem?_map, List.getElem?_range, hi,
      Option.map_some', Option.getD_some]
    rfl

/-- C5 witness: the rate of demo point 3 equals the formula at index 3. -/
theorem demo_rates_deterministic_witness :
    ((generate_demo_data 0).1.map RatePoint.rate).getD 3 0 =
      round4 ((309 : ℚ) / 100 + (5 : ℚ) / 10000 * (((3 : ℕ) : ℚ) - 15) +
        (1 : ℚ) / 100 * (((3 % 5 : ℕ) : ℚ) - 2) / 2) :=
  (demo_rates_deterministic 0 5).2 3 (by decide)

/-- C5 counterexample: two invocations of the demo generator whose
clock-derived start days differ produce different series — the first point
is stamped with day 0 by one call and with day 1 by the other — refuting
bit-identical output across invocations. -/
theorem demo_clock_counterexample :
    ((generate_demo_data 0).1.getD 0 default).date = "0" ∧
    ((generate_demo_data 1).1.getD 0 default).date = "1" ∧
    (generate_demo_data 0).1 ≠ (generate_demo_data 1).1 := by
  have hA : ((generate_demo_data 0).1.getD 0 default).date = "0" := by rfl
  have hB : ((generate_demo_data 1).1.getD 0 default).date = "1" := by rfl
  refine ⟨hA, hB, fun h => ?_⟩
  have h0 := congrArg (fun l => (l.getD 0 default).date) h
  simp only at h0
  rw [hA, hB] at h0
  exact absurd h0 (by decide)

/-- C6: the cache load fails soft — a missing file, malformed JSON, a
record with a missing required key, or an unparseable timestamp each fall
through to the demo tier without propagating an exception — and a valid
record is returned with a status label giving the cache age
`(now - capturedAt)` in hours, formatted to one decimal place. -/
theorem cache_load_fails_soft (now : ℚ) (sd : ℤ) :
    load_cached_data CacheFile.absent now sd = generate_demo_data sd ∧
    load_cached_data CacheFile.malformed now sd = generate_demo_data sd ∧
    (∀ ts d r, ts = none ∨ d = none ∨ r = none →
      load_cached_data (CacheFile.record ts d r) now sd = generate_demo_data sd) ∧
    (∀ raw d r,
      load_cached_data (CacheFile.record (some (TsVal.unparseable raw)) d r) now sd =
        generate_demo_data sd) ∧
    (∀ t pts r,
      load_cached_data (CacheFile.record (some (TsVal.parsed t)) (some pts) (some r)) now sd =
        (pts, r, "⚠️ Using cached data (" ++ fmt1 ((now - t) / 3600) ++ " hours old)")) := by
  refine ⟨rfl, rfl, ?_, ?_, fun t pts r => rfl⟩
  · rintro ts d r (rfl | rfl | rfl)
    · have hcl : cacheLoad (CacheFile.record none d r) = none := by
        rcases d with _ | pts <;> rcases r with _ | cr <;> rfl
      unfold load_cached_data
      rw [hcl]
    · have hcl : cacheLoad (CacheFile.record ts none r) = none := by
        rcases ts with _ | tv
        · rfl
        · rcases tv with _ | _ <;> rcases r with _ | cr <;> rfl
      unfold load_cached_data
      rw [hcl]
    · have hcl : cacheLoad (CacheFile.record ts d none) = none := by
        rcases ts with _ | tv
        · rfl
        · rcases tv with _ | _ <;> rcases d with _ | pts <;> rfl
      unfold load_cached_data
      rw [hcl]
  · intro raw d r
    have hcl : cacheLoad (CacheFile.record (some (TsVal.unparseable raw)) d r) = none := by
      rcases d with _ | pts <;> rcases r with _ | cr <;> rfl
    unfold load_cached_data
    rw [hcl]

/-- C6 witness: an all-keys-missing record and a record with the timestamp
"not-a-date" both fall through to the demo tier, and a valid record two
hours old is returned with its age label. -/
theorem cache_load_fails_soft_witness :
    load_cached_data (CacheFile.record none none none) 7200 0 = generate_demo_data 0 ∧
    load_cached_data (CacheFile.record (some (TsVal.unparseable "not-a-date"))
        (some [⟨"2026-02-14", 31 / 10⟩]) (some (31 / 10))) 7200 0 = generate_demo_data 0 ∧
    load_cached_data (CacheFile.record (some (TsVal.parsed 0)) (some [⟨"2026-02-14", 31 / 10⟩])
        (some (31 / 10))) 7200 0 =
      ([⟨"2026-02-14", 31 / 10⟩], 31 / 10,
        "⚠️ Using cached data (" ++ fmt1 ((7200 - 0) / 3600) ++ " hours old)") :=
  ⟨(cache_load_fails_soft 7200 0).2.2.1 none none none (Or.inl rfl),
    (cache_load_fails_soft 7200 0).2.2.2.1 "not-a-date" _ _,
    (cache_load_fails_soft 7200 0).2.2.2.2 0 _ _⟩

/-- C7: in a flat market, where the short and long moving-average columns
agree at every index, the backtest records no trades and the portfolio
trajectory is constantly the initial USD amount; equality never triggers a
crossover because the current-index comparisons are strict. -/
theorem flat_market_no_trades (dates : List String) (rates : List ℚ) (initial : ℚ)
    (h : rollingMean 7 rates = rollingMean 14 rates) :
    (btRun dates rates (rollingMean 7 rates) (rollingMean 14 rates) initial).trades = [] ∧
    (btRun dates rates (rollingMean 7 rates) (rollingMean 14 rates) initial).pv =
      List.replicate rates.length initial := by
  rw [h]
  unfold btRun
  rw [btRunUpTo_flat]
  exact ⟨rfl, rfl⟩

/-- C7 witness: a constant three-point series has equal MA columns, zero
trades and a constant portfolio trajectory. -/
theorem flat_market_no_trades_witness :
    (btRun ["f0", "f1", "f2"] [3, 3, 3] (rollingMean 7 [3, 3, 3]) (rollingMean 14 [3, 3, 3])
        1000).trades = [] ∧
    (btRun ["f0", "f1", "f2"] [3, 3, 3] (rollingMean 7 [3, 3, 3]) (rollingMean 14 [3, 3, 3])
        1000).pv = List.replicate (List.length [(3 : ℚ), 3, 3]) 1000 :=
  flat_market_no_trades ["f0", "f1", "f2"] [3, 3, 3] 1000 (by
    norm_num [rollingMean, List.range_succ])

/-- C8 (amended): the chain tries Bank of Israel, then ExchangeRate.host,
then ExchangeRate-API, returning the first non-absent (truthy) rate, and
the sentinel triple — not an exception — when all three are absent; only
the first source's label carries a parenthesised rank suffix
" (Official)", the two backup labels are a check mark and the bare provider
name.  As stated the claim fails: the backup labels have no
"<providerName> (<rank-label>)" shape (see the counterexample). -/
theorem source_chain_order (w : SourceWorld) :
    (∀ r d, w.boi = some (r, d) → r ≠ 0 →
      get_current_rate w = (some r, some d, "✅ Bank of Israel (Official)")) ∧
    (ratePresent w.boi = false → ∀ r d, w.erHost = some (r, d) → r ≠ 0 →
      get_current_rate w = (some r, some d, "✅ ExchangeRate.host")) ∧
    (ratePresent w.boi = false → ratePresent w.erHost = false →
      ∀ r d, w.erApi = some (r, d) → r ≠ 0 →
      get_current_rate w = (some r, some d, "✅ ExchangeRate-API")) ∧
    (ratePresent w.boi = false → ratePresent w.erHost = false → ratePresent w.erApi = false →
      get_current_rate w = (none, none, "❌ All APIs unavailable")) := by
  obtain ⟨b, eh, ea⟩ := w
  refine ⟨?_, ?_, ?_, ?_⟩
  · rintro r d rfl hr
    simp only [get_current_rate]
    rw [if_neg hr]
  · intro hb
    rintro r d rfl hr
    rcases b with _ | ⟨rb, db⟩
    · simp only [get_current_rate, gcrHost]
      rw [if_neg hr]
    · simp only [ratePresent, bne_eq_false_iff_eq] at hb
      simp only [get_current_rate, gcrHost]
      rw [if_pos hb, if_neg hr]
  · intro hb hh
    rintro r d rfl hr
    rcases b with _ | ⟨rb, db⟩ <;> rcases eh with _ | ⟨rh, dh⟩
    · simp only [get_current_rate, gcrHost, gcrApi]
      rw [if_neg hr]
    · simp only [ratePresent, bne_eq_false_iff_eq] at hh
      simp only [get_current_rate, gcrHost, gcrApi]
      rw [if_pos hh, if_neg hr]
    · simp only [ratePresent, bne_eq_false_iff_eq] at hb
      simp only [get_current_rate, gcrHost, gcrApi]
      rw [if_pos hb, if_neg hr]
    · simp only [ratePresent, bne_eq_false_iff_eq] at hb hh
      simp only [get_current_rate, gcrHost, gcrApi]
      rw [if_pos hb, if_pos hh, if_neg hr]
  · intro hb hh ha
    rcases b with _ | ⟨rb, db⟩ <;> rcases eh with _ | ⟨rh, dh⟩ <;> rcases ea with _ | ⟨ra, da⟩ <;>
      simp only [ratePresent, bne_eq_false_iff_eq] at hb hh ha ⊢ <;>
      simp only [get_current_rate, gcrHost, gcrApi] <;>
      first
      | rfl
      | (rw [if_pos]; try rw [if_pos]; try rw [if_pos]) <;> assumption

/-- C8 counterexample: with Bank of Israel down and ExchangeRate.host up,
the provenance label is "✅ ExchangeRate.host", which contains no opening
parenthesis at all, hence no parenthesised rank label of the claimed
"<providerName> (<rank-label>)" shape. -/
theorem provenance_no_rank_counterexample :
    (get_current_rate ⟨none, some (31 / 10, "2026-01-01"), none⟩).2.2 = "✅ ExchangeRate.host" ∧
    ((get_current_rate ⟨none, some (31 / 10, "2026-01-01"), none⟩).2.2.data.contains '(')
      = false := by
  have h : ((31 : ℚ) / 10) ≠ 0 := by norm_num
  have hres : get_current_rate ⟨none, some (31 / 10, "2026-01-01"), none⟩ =
      (some (31 / 10), some "2026-01-01", "✅ ExchangeRate.host") := by
    simp only [get_current_rate, gcrHost]
    rw [if_neg h]
  rw [hres]
  exact ⟨rfl, by decide⟩

/-- C9 (amended): the backtest call writes the two indicator columns into
the caller's frame in place — the dashboard relies on reading them after
the call — while leaving the Date and Rate columns (and so the row count)
unchanged.  As stated the claim fails: the input frame does not come out
unchanged (see the counterexample). -/
theorem backtest_frame_effect (df : DataFrame) (initial : ℚ) :
    (calculate_trading_profit df initial).1.dates = df.dates ∧
    (calculate_trading_profit df initial).1.rates = df.rates ∧
    (calculate_trading_profit df initial).1.sma7 = some (rollingMean 7 df.rates) ∧
    (calculate_trading_profit df initial).1.sma14 = some (rollingMean 14 df.rates) := by
  rw [calc_profit_frame]
  exact ⟨rfl, rfl, rfl, rfl⟩

/-- C9 counterexample: on a one-row frame with no indicator columns, the
frame visible after the call carries an SMA_7 column while the frame passed
in had none — the input is mutated, refuting "leaves the input series
unchanged". -/
theorem backtest_mutates_frame_counterexample :
    (calculate_trading_profit ⟨["2026-01-01"], [3], none, none⟩ 1000).1.sma7 = some [3] ∧
    DataFrame.sma7 ⟨["2026-01-01"], [3], none, none⟩ = none := by
  constructor
  · rw [calc_profit_frame]
    norm_num [rollingMean, List.range_succ]
  · rfl

/-- C10: whenever both the live fetch and the cache fail, the acquirer
returns the demo series, which has exactly 30 points regardless of the
requested day count (the generator takes no day argument), and the reported
current rate is the rate of the last generated point. -/
theorem demo_fallback_thirty (w : World) (days : ℕ)
    (hb : w.raises = true ∨ w.hist days = none ∨ w.hist days = some [])
    (hc : cacheLoad w.cache = none) :
    (fetch_real_exchange_rates w days).1.length = 30 ∧
    (fetch_real_exchange_rates w days).2.1 =
      ((fetch_real_exchange_rates w days).1.getLastD default).rate := by
  have hdemo : fetch_real_exchange_rates w days = generate_demo_data w.startDay := by
    have hload : load_cached_data w.cache w.nowSeconds w.startDay =
        generate_demo_data w.startDay := by
      unfold load_cached_data
      rw [hc]
    unfold fetch_real_exchange_rates
    split_ifs with hr
    · exact hload
    · rcases hb with hb | hb | hb
      · exact absurd hb hr
      · rw [hb]
        exact hload
      · rw [hb]
        dsimp only
        rw [if_pos (show ([] : List RatePoint).isEmpty = true from rfl)]
        exact hload
  rw [hdemo]
  exact ⟨by simp [generate_demo_data], rfl⟩

/-- C10 witness: with every tier down and 7 days requested, the returned
series still has 30 points and reports the last point's rate. -/
theorem demo_fallback_thirty_witness :
    (fetch_real_exchange_rates allDownWorld 7).1.length = 30 ∧
    (fetch_real_exchange_rates allDownWorld 7).2.1 =
      ((fetch_real_exchange_rates allDownWorld 7).1.getLastD default).rate :=
  demo_fallback_thirty allDownWorld 7 (Or.inr (Or.inl rfl)) rfl
